import Mathlib

/-!
Verification of the Quantum-Wormhole-Circuit-Simulator repository.

This file gives a shallow embedding, over the real numbers, of the numerical
core of the simulator:

* the per-qubit state model and single-qubit gates of the component file
  (class `Qubit` in `QuantumWormholeSimulator.tsx`),
* the five-qubit circuit model (class `QuantumCircuit`: construction-time gate
  application, intra- and inter-circuit entanglement bookkeeping, swap and
  ccnot toggles, measurement history, evolution and reset),
* the streamline probability-density computation and per-tick streamline
  update of class `QuantumLaminarFlow`,
* the wormhole fragmentation and reconstruction pipeline of
  `services/wormhole.ts`,
* the seed encode/decode path (JSON serialization of the gate selection
  followed by base64), modelled over lists of characters.

JavaScript floating-point numbers are modelled as real numbers, and calls to
`Math.random()` / `Date.now()` become explicit parameters.  Qubit counts are
fixed at five, matching every construction site in the source (the component
always builds `new QuantumCircuit(5, ...)`).  The `id` field of the component
`Qubit` class is written once at construction from the circuit id and index
and is only read by the rendering layer, so it is not modelled.
-/

/-- Reference to an entanglement partner: intra-circuit partners are recorded
as plain numeric indices, cross-circuit partners as strings of the form
circuit-id followed by the qubit index (see `entangleQubits` and
`createInterCircuitEntanglement` in the source). -/
inductive PartnerRef where
  | intra (i : ℕ)
  | cross (s : String)
deriving DecidableEq

/-- State of one qubit, mirroring the fields of the component `Qubit` class:
a two-component real state vector, an unbounded phase accumulator, the
entanglement flag, the partner list and the ordered list of applied gate
labels. -/
structure Qubit where
  state : ℝ × ℝ
  phase : ℝ
  entangled : Bool
  entangledWith : List PartnerRef
  appliedGates : List String

/-- A freshly constructed qubit: state `[1, 0]`, phase `0`, no entanglement,
no applied gates. -/
def initQubit : Qubit :=
  { state := (1, 0), phase := 0, entangled := false
    entangledWith := [], appliedGates := [] }

namespace Qubit

/-- `hadamard()`: state becomes `[(a+b)/sqrt 2, (a-b)/sqrt 2]`. -/
noncomputable def hadamard (q : Qubit) : Qubit :=
  { q with
    state := ((q.state.1 + q.state.2) / Real.sqrt 2,
              (q.state.1 - q.state.2) / Real.sqrt 2)
    appliedGates := q.appliedGates ++ ["H"] }

/-- `pauliX()`: the two components are exchanged. -/
def pauliX (q : Qubit) : Qubit :=
  { q with
    state := (q.state.2, q.state.1)
    appliedGates := q.appliedGates ++ ["X"] }

/-- `pauliY()`: state becomes `[-b, a]`. -/
def pauliY (q : Qubit) : Qubit :=
  { q with
    state := (-q.state.2, q.state.1)
    appliedGates := q.appliedGates ++ ["Y"] }

/-- `pauliZ()`: state becomes `[a, -b]`. -/
def pauliZ (q : Qubit) : Qubit :=
  { q with
    state := (q.state.1, -q.state.2)
    appliedGates := q.appliedGates ++ ["Z"] }

/-- `rotationX(theta)`: the closed-form rotation used by the source. -/
noncomputable def rotationX (theta : ℝ) (q : Qubit) : Qubit :=
  { q with
    state := (q.state.1 * Real.cos (theta / 2) - q.state.2 * Real.sin (theta / 2),
              q.state.1 * Real.sin (theta / 2) + q.state.2 * Real.cos (theta / 2))
    appliedGates := q.appliedGates ++ ["Rx"] }

/-- `rotationY(theta)`: textually the same formula as `rotationX` in the
source, with label `Ry`. -/
noncomputable def rotationY (theta : ℝ) (q : Qubit) : Qubit :=
  { q with
    state := (q.state.1 * Real.cos (theta / 2) - q.state.2 * Real.sin (theta / 2),
              q.state.1 * Real.sin (theta / 2) + q.state.2 * Real.cos (theta / 2))
    appliedGates := q.appliedGates ++ ["Ry"] }

/-- `rotationZ(theta)`: the simplified source formula
`[a cos(theta/2), b cos(theta/2) + b sin(theta/2) sin(pi/2)]`, with the phase
accumulator incremented by `theta`. -/
noncomputable def rotationZ (theta : ℝ) (q : Qubit) : Qubit :=
  { q with
    state := (q.state.1 * Real.cos (theta / 2),
              q.state.2 * Real.cos (theta / 2) +
                q.state.2 * Real.sin (theta / 2) * Real.sin (Real.pi / 2))
    phase := q.phase + theta
    appliedGates := q.appliedGates ++ ["Rz"] }

/-- `tGate()`: the simplified source formula
`[a, b cos(pi/4) + b sin(pi/4)]` with phase incremented by `pi/4`. -/
noncomputable def tGate (q : Qubit) : Qubit :=
  { q with
    state := (q.state.1,
              q.state.2 * Real.cos (Real.pi / 4) + q.state.2 * Real.sin (Real.pi / 4))
    phase := q.phase + Real.pi / 4
    appliedGates := q.appliedGates ++ ["T"] }

/-- `getProbability1()`: the squared absolute value of the second component. -/
def getProbability1 (q : Qubit) : ℝ := |q.state.2| ^ 2

/-- `getProbability0()`: the squared absolute value of the first component. -/
def getProbability0 (q : Qubit) : ℝ := |q.state.1| ^ 2

/-- `measure()`: the uniform random draw `random` becomes an explicit
parameter.  The source compares `random < prob0` where
`prob0 = Math.abs(state[0]) ** 2`, collapses the state to the matching basis
vector and returns the measured bit. -/
noncomputable def measure (random : ℝ) (q : Qubit) : ℕ × Qubit :=
  let prob0 := |q.state.1| ^ 2
  if random < prob0 then (0, { q with state := (1, 0) })
  else (1, { q with state := (0, 1) })

/-- `reset()`: every modelled field returns to its initial value. -/
def reset (_q : Qubit) : Qubit := initQubit

end Qubit

/-- Per-circuit gate selection: seven single-qubit gate toggles per qubit,
four swap toggles for adjacent pairs and three ccnot toggles for adjacent
triples (the shape of `initialGates` in the component). -/
structure SelectedGates where
  hadamard : Fin 5 → Bool
  pauliX : Fin 5 → Bool
  pauliY : Fin 5 → Bool
  pauliZ : Fin 5 → Bool
  rotationX : Fin 5 → Bool
  rotationY : Fin 5 → Bool
  rotationZ : Fin 5 → Bool
  tGate : Fin 5 → Bool
  swap : Fin 4 → Bool
  ccnot : Fin 3 → Bool

/-- One snapshot of the measurement history: timestamp, the five measured
bits and the five post-measurement probabilities. -/
structure MeasurementRecord where
  timestamp : ℝ
  results : List ℕ
  probabilities : List ℝ

/-- The five-qubit circuit (class `QuantumCircuit` instantiated, as at every
construction site in the source, with `numQubits = 5`).  The never-read
`gates` array of the source is not modelled. -/
structure QuantumCircuit where
  circuitId : String
  qubits : Fin 5 → Qubit
  measurementHistory : List MeasurementRecord
  selectedGates : Option SelectedGates
  interCircuitConnections : List (ℕ × ℕ)

/-- Update one qubit of a five-qubit register in place. -/
def updQ (qs : Fin 5 → Qubit) (i : Fin 5) (f : Qubit → Qubit) : Fin 5 → Qubit :=
  Function.update qs i (f (qs i))

/-- `entangleQubits(i, j)`: the four sequential field mutations of the source
(set both entangled flags, then push the partner indices). -/
def entangleQubits (qs : Fin 5 → Qubit) (i j : Fin 5) : Fin 5 → Qubit :=
  let qs1 := updQ qs i (fun q => { q with entangled := true })
  let qs2 := updQ qs1 j (fun q => { q with entangled := true })
  let qs3 := updQ qs2 i
    (fun q => { q with entangledWith := q.entangledWith ++ [.intra j.val] })
  updQ qs3 j
    (fun q => { q with entangledWith := q.entangledWith ++ [.intra i.val] })

/-- `swap(i, j)`: state and phase are exchanged between the two qubits; the
other fields stay in place. -/
def swapQubits (qs : Fin 5 → Qubit) (i j : Fin 5) : Fin 5 → Qubit :=
  fun k =>
    if k = i then
      { qs i with state := (qs j).state, phase := (qs j).phase }
    else if k = j then
      { qs j with state := (qs i).state, phase := (qs i).phase }
    else qs k

/-- `ccnot(c1, c2, t)`: the three pairs are marked entangled, then a one-time
conditional `pauliX` fires on the target when both controls currently have
`getProbability1() > 0.5`. -/
noncomputable def ccnotGate (qs : Fin 5 → Qubit) (c1 c2 t : Fin 5) : Fin 5 → Qubit :=
  if ((entangleQubits (entangleQubits (entangleQubits qs c1 t) c2 t) c1 c2) c1).getProbability1 > 0.5 ∧
      ((entangleQubits (entangleQubits (entangleQubits qs c1 t) c2 t) c1 c2) c2).getProbability1 > 0.5 then
    updQ (entangleQubits (entangleQubits (entangleQubits qs c1 t) c2 t) c1 c2) t Qubit.pauliX
  else entangleQubits (entangleQubits (entangleQubits qs c1 t) c2 t) c1 c2

/-- The per-qubit single-gate pass of `setupCircuit`: the selected gates are
applied in the fixed source order (hadamard, pauliX, pauliY, pauliZ,
rotationX, rotationY, rotationZ, tGate), the rotations with their default
angle `pi / 4`. -/
noncomputable def applyGatesToQubit (sel : SelectedGates) (i : Fin 5) (q : Qubit) : Qubit :=
  let q1 := if sel.hadamard i then q.hadamard else q
  let q2 := if sel.pauliX i then q1.pauliX else q1
  let q3 := if sel.pauliY i then q2.pauliY else q2
  let q4 := if sel.pauliZ i then q3.pauliZ else q3
  let q5 := if sel.rotationX i then q4.rotationX (Real.pi / 4) else q4
  let q6 := if sel.rotationY i then q5.rotationY (Real.pi / 4) else q5
  let q7 := if sel.rotationZ i then q6.rotationZ (Real.pi / 4) else q6
  if sel.tGate i then q7.tGate else q7

/-- `createIntraCircuitEntanglement()`: the three hardcoded pairs
`(0, 1)`, `(2, 3)`, `(1, 4)` are flagged as entangled (no state change). -/
def createIntraCircuitEntanglement (qs : Fin 5 → Qubit) : Fin 5 → Qubit :=
  [((0 : Fin 5), (1 : Fin 5)), (2, 3), (1, 4)].foldl
    (fun qs p => entangleQubits qs p.1 p.2) qs

/-- `setupCircuit()`: selected single-qubit gates first, then the hardcoded
intra-circuit entanglement pairs, then the selected swaps in index order,
then the selected ccnot triples in index order.  With a `null` gate
selection the method returns immediately. -/
noncomputable def setupQubits (sel : SelectedGates) (qs : Fin 5 → Qubit) : Fin 5 → Qubit :=
  let qs1 := fun i => applyGatesToQubit sel i (qs i)
  let qs2 := createIntraCircuitEntanglement qs1
  let qs3 := (List.finRange 4).foldl
    (fun qs i =>
      if sel.swap i then
        swapQubits qs ⟨i.val, by have := i.isLt; omega⟩ ⟨i.val + 1, by have := i.isLt; omega⟩
      else qs) qs2
  (List.finRange 3).foldl
    (fun qs i =>
      if sel.ccnot i then
        ccnotGate qs ⟨i.val, by have := i.isLt; omega⟩ ⟨i.val + 1, by have := i.isLt; omega⟩
          ⟨i.val + 2, by have := i.isLt; omega⟩
      else qs) qs3

/-- `setupCircuit()` at the circuit level. -/
noncomputable def setupCircuit (c : QuantumCircuit) : QuantumCircuit :=
  match c.selectedGates with
  | none => c
  | some sel => { c with qubits := setupQubits sel c.qubits }

/-- The `QuantumCircuit` constructor at its only used qubit count (five):
five fresh qubits, empty history and connection list, then `setupCircuit`. -/
noncomputable def mkQuantumCircuit (circuitId : String)
    (selectedGates : Option SelectedGates) : QuantumCircuit :=
  setupCircuit
    { circuitId := circuitId
      qubits := fun _ => initQubit
      measurementHistory := []
      selectedGates := selectedGates
      interCircuitConnections := [] }

/-- `resetCircuit()`: every qubit is reset, the measurement history and the
cross-circuit connection list are cleared, and `setupCircuit` replays the
stored gate selection. -/
noncomputable def resetCircuit (c : QuantumCircuit) : QuantumCircuit :=
  setupCircuit
    { c with
      qubits := fun i => (c.qubits i).reset
      measurementHistory := []
      interCircuitConnections := [] }

/-- `evolve(dt)`: each qubit's phase advances by `(0.1 + 0.03 i) dt` and a
small `rotationZ` of angle `0.008 sin(phase)` is applied. -/
noncomputable def evolveCircuit (c : QuantumCircuit) (dt : ℝ) : QuantumCircuit :=
  { c with
    qubits := fun i =>
      let q := c.qubits i
      let q := { q with phase := q.phase + (0.1 + (i.val : ℝ) * 0.03) * dt }
      q.rotationZ (0.008 * Real.sin q.phase) }

/-- `measureAll()`: every qubit is measured (the five uniform draws and the
timestamp are explicit parameters), a snapshot is pushed onto the history,
and the oldest entry is shifted off when the length exceeds 100. -/
noncomputable def measureAll (c : QuantumCircuit) (randoms : Fin 5 → ℝ)
    (timestamp : ℝ) : List ℕ × QuantumCircuit :=
  let results := fun i => ((c.qubits i).measure (randoms i)).1
  let qubits' := fun i => ((c.qubits i).measure (randoms i)).2
  let record : MeasurementRecord :=
    { timestamp := timestamp
      results := List.ofFn results
      probabilities := List.ofFn fun i => (qubits' i).getProbability1 }
  let pushed := c.measurementHistory ++ [record]
  let history := if pushed.length > 100 then pushed.tail else pushed
  (List.ofFn results, { c with qubits := qubits', measurementHistory := history })

/-- `getSystemProbability()`: the product of all five `getProbability1()`
values (a fold starting at 1). -/
def getSystemProbability (c : QuantumCircuit) : ℝ :=
  (List.finRange 5).foldl (fun prob i => prob * (c.qubits i).getProbability1) 1

/-- `createInterCircuitEntanglement(otherCircuit, connections)`: the receiving
circuit stores the connection list, then for every in-range pair the two
state vectors are combined into `[(a1+a2)/sqrt 2, (b1+b2)/sqrt 2]`, written
to both sides, both qubits are flagged entangled, and each side records the
partner as the string circuit-id-plus-index.  Returns the updated pair
(receiver, other). -/
noncomputable def interEntangleStep (p : QuantumCircuit × QuantumCircuit)
    (conn : ℕ × ℕ) : QuantumCircuit × QuantumCircuit :=
  if h : conn.1 < 5 ∧ conn.2 < 5 then
    let i : Fin 5 := ⟨conn.1, h.1⟩
    let j : Fin 5 := ⟨conn.2, h.2⟩
    let thisState := (p.1.qubits i).state
    let otherState := (p.2.qubits j).state
    let avgState := ((thisState.1 + otherState.1) / Real.sqrt 2,
                     (thisState.2 + otherState.2) / Real.sqrt 2)
    let first := { p.1 with qubits := updQ p.1.qubits i (fun q =>
      { q with
        state := avgState
        entangled := true
        entangledWith := q.entangledWith ++
          [.cross (p.2.circuitId ++ toString conn.2)] }) }
    let second := { p.2 with qubits := updQ p.2.qubits j (fun q =>
      { q with
        state := avgState
        entangled := true
        entangledWith := q.entangledWith ++
          [.cross (p.1.circuitId ++ toString conn.1)] }) }
    (first, second)
  else p

noncomputable def createInterCircuitEntanglement (c other : QuantumCircuit)
    (connections : List (ℕ × ℕ)) : QuantumCircuit × QuantumCircuit :=
  connections.foldl interEntangleStep
    ({ c with interCircuitConnections := connections }, other)

/-- One streamline record of `QuantumLaminarFlow`: coordinate path, per-point
probability density, per-point phase and a scalar coherence length. -/
structure QuantumStreamline where
  coordinates : List (ℝ × ℝ)
  probabilityDensity : List ℝ
  phase : List ℝ
  coherenceLength : ℝ

/-- `computeQuantumProbabilityDensity(coords, streamlineId)`: every path
point receives the weight `max 0.1 (prob1 * (1 + 0.4 sin(4 pi t + phase)))`
for the qubit `streamlineId % 5` of the selected circuit (the body of the
source map reads the index but not the coordinate value), and the resulting
list is normalized by its sum when that sum is positive. -/
noncomputable def streamlinePointWeight (dualCircuitMode : Bool)
    (circuitA : QuantumCircuit) (circuitB : Option QuantumCircuit)
    (len streamlineId idx : ℕ) : ℝ :=
  match if dualCircuitMode && decide (streamlineId ≥ if dualCircuitMode then 10 else 15)
      then circuitB else some circuitA with
  | none => max 0.1 0.5
  | some c =>
      max 0.1 ((c.qubits ⟨streamlineId % 5, Nat.mod_lt _ (by omega)⟩).getProbability1 *
        (1 + 0.4 * Real.sin (4 * Real.pi * ((idx : ℝ) / (len : ℝ)) +
          (c.qubits ⟨streamlineId % 5, Nat.mod_lt _ (by omega)⟩).phase)))

noncomputable def computeQuantumProbabilityDensity (dualCircuitMode : Bool)
    (circuitA : QuantumCircuit) (circuitB : Option QuantumCircuit)
    (coords : List (ℝ × ℝ)) (streamlineId : ℕ) : List ℝ :=
  if coords.length = 0 then []
  else if ((List.range coords.length).map
      (streamlinePointWeight dualCircuitMode circuitA circuitB coords.length
        streamlineId)).sum > 0 then
    ((List.range coords.length).map
      (streamlinePointWeight dualCircuitMode circuitA circuitB coords.length
        streamlineId)).map
      (fun p => p / ((List.range coords.length).map
        (streamlinePointWeight dualCircuitMode circuitA circuitB coords.length
          streamlineId)).sum)
  else
    (List.range coords.length).map
      (streamlinePointWeight dualCircuitMode circuitA circuitB coords.length
        streamlineId)

/-- The per-streamline part of `QuantumLaminarFlow.evolve(dt)`: the coherence
length is rescaled by `0.9998 (1 + 0.1 sin(0.25 time))`, and every interior
coordinate is jittered by a phase-dependent random perturbation and clamped
back into the domain.  The probability-density and phase arrays are not
touched.  The random draws are an explicit parameter. -/
noncomputable def evolveStreamline (time Lx Ly : ℝ) (randoms : ℕ → ℝ × ℝ)
    (s : QuantumStreamline) : QuantumStreamline :=
  let oscillation := 1 + 0.1 * Real.sin (time * 0.25)
  { s with
    coherenceLength := s.coherenceLength * (0.9998 * oscillation)
    coordinates := (List.range s.coordinates.length).map fun idx =>
      let coord := s.coordinates.getD idx (0, 0)
      if 0 < idx ∧ idx < s.coordinates.length - 1 then
        let phaseEvolution := s.phase.getD idx 0
        let perturbation := 0.002 * Real.sin (phaseEvolution + time)
        let x := coord.1 + perturbation * ((randoms idx).1 - 0.5)
        let y := coord.2 + perturbation * ((randoms idx).2 - 0.5)
        (max 0.1 (min (Lx - 0.1) x), max 0.1 (min (Ly - 0.1) y))
      else coord }

/-- Physical constants of `constants.ts` that the wormhole pipeline reads. -/
noncomputable def HBAR : ℝ := 1.0545718e-34

/-- Speed of light from `constants.ts`. -/
noncomputable def C_LIGHT : ℝ := 299792458

/-- Einstein constant from `constants.ts`. -/
noncomputable def EINSTEIN_CONSTANT : ℝ := 2.076e-43

/-- `WORMHOLE_CONFIG.majorana_mass`. -/
noncomputable def majorana_mass : ℝ := 2.5e-25

/-- `WORMHOLE_CONFIG.dark_energy`. -/
noncomputable def dark_energy : ℝ := -1.2e-10

/-- `WORMHOLE_CONFIG.wormhole_distance`. -/
noncomputable def wormhole_distance : ℝ := 1.6e-35

/-- `WORMHOLE_CONFIG.num_points`. -/
def num_points : ℕ := 1000

/-- One point of the idealized throat geometry. -/
structure GeometryPoint where
  z : ℝ
  radius : ℝ
  curvature : ℝ
  energy_density : ℝ

/-- A geometry point with the derived curvature fields. -/
structure SpacetimePoint extends GeometryPoint where
  einstein_tensor : ℝ
  ricci_scalar : ℝ
  stress_energy : ℝ

/-- One point of the Majorana field array. -/
structure MajoranaFieldPoint where
  position : ℝ
  amplitude : ℝ
  phase : ℝ
  spinor : List ℝ
  mass_term : ℝ

/-- `calculateThroatGeometry()` at index `i` (the source builds the array of
`num_points` such entries). -/
noncomputable def throatGeometry (i : ℕ) : GeometryPoint :=
  let throat_radius := wormhole_distance
  let z := ((i : ℝ) / (num_points : ℝ) - 0.5) * 10 * throat_radius
  { z := z
    radius := throat_radius * Real.sqrt (1 + (z / throat_radius) ^ 2)
    curvature := 1 / (throat_radius * (1 + (z / throat_radius) ^ 2) ^ ((3 : ℝ) / 2))
    energy_density := dark_energy * Real.exp (-|z| / throat_radius) }

/-- `calculateSpacetimeCurvature()` at index `i`. -/
noncomputable def spacetimeCurvature (i : ℕ) : SpacetimePoint :=
  let point := throatGeometry i
  { point with
    einstein_tensor := EINSTEIN_CONSTANT * point.energy_density
    ricci_scalar := 2 * point.curvature
    stress_energy := point.energy_density / C_LIGHT ^ 2 }

/-- `initializeMajoranaField()` at index `i`. -/
noncomputable def majoranaField (i : ℕ) : MajoranaFieldPoint :=
  let point := throatGeometry i
  let phase := 2 * Real.pi * (i : ℝ) / (num_points : ℝ)
  let amplitude := Real.exp (-|point.z| / wormhole_distance)
  { position := point.z
    amplitude := amplitude
    phase := phase
    spinor := [amplitude * Real.cos (phase / 2), amplitude * Real.sin (phase / 2),
               -amplitude * Real.sin (phase / 2), amplitude * Real.cos (phase / 2)]
    mass_term := majorana_mass * amplitude }

/-- `calculateQuantumTunnelingProbability(energy_state)`: full transmission
0.98 above the barrier height, exponential decay below it. -/
noncomputable def calculateQuantumTunnelingProbability (amplitude : ℝ) : ℝ :=
  let barrier_height := |dark_energy|
  let particle_energy := amplitude * HBAR * C_LIGHT
  if particle_energy > barrier_height then 0.98
  else
    let kappa := Real.sqrt (2 * (barrier_height - particle_energy)) / HBAR
    let barrier_width := 2 * wormhole_distance
    Real.exp (-2 * kappa * barrier_width)

/-- A qubit of the service-level `Circuit` interface in `types.ts`. -/
structure WQubit where
  id : ℕ
  amplitude : ℝ
  phase : ℝ
  coherence : ℝ

/-- A five-qubit service-level circuit, the input type of the fragmentation
pipeline. -/
structure WCircuit where
  id : String
  qubits : Fin 5 → WQubit

/-- A fragment's adjusted copy of one input qubit. -/
structure FragmentQubit where
  id : ℕ
  amplitude : ℝ
  phase : ℝ
  coherence : ℝ
  wormhole_coupling : ℝ
  spacetime_correction : ℝ

/-- One of the 1024 fragment records.  The source stores the ten adjusted
qubits in one array, circuit A's five copies followed by circuit B's five;
here the two halves are the `qubitsA` and `qubitsB` components. -/
structure FragmentedState where
  id : ℕ
  wormhole_position : ℝ
  alpha : ℝ
  beta : ℝ
  geometric_phase : ℝ
  tunneling_probability : ℝ
  qubitsA : Fin 5 → FragmentQubit
  qubitsB : Fin 5 → FragmentQubit
  coordX : ℕ
  coordY : ℕ
  wormhole_sector : ℕ

/-- The output of `createWormholeFragmentationSystem` (the `wormhole` object
itself is fully determined by the fixed configuration, so only its derived
data appears here). -/
structure FragmentationSystem where
  fragmented_states : List FragmentedState
  total_energy : ℝ
  average_tunneling : ℝ
  geometric_coherence : ℝ

/-- The body of the fragment loop of `createWormholeFragmentationSystem` for
loop index `i`: geometry and Majorana data are read at index
`i % num_points`, the mixing coefficients come from `cos/sin(pi i / 2048)`
scaled by the square root of the geometric factor, and the ten adjusted
qubit copies are produced. -/
noncomputable def mkFragmentedState (circuitA circuitB : WCircuit) (i : ℕ) :
    FragmentedState :=
  let wormhole_point := spacetimeCurvature (i % num_points)
  let majorana_point := majoranaField (i % num_points)
  let geometric_factor := wormhole_point.radius / wormhole_distance
  let alpha := Real.cos (Real.pi * (i : ℝ) / 2048) * Real.sqrt geometric_factor
  let beta := Real.sin (Real.pi * (i : ℝ) / 2048) * Real.sqrt geometric_factor
  { id := i
    wormhole_position := wormhole_point.z
    alpha := alpha
    beta := beta
    geometric_phase := majorana_point.phase
    tunneling_probability :=
      calculateQuantumTunnelingProbability (Real.sqrt (alpha * alpha + beta * beta))
    qubitsA := fun j =>
      let q := circuitA.qubits j
      { id := q.id
        amplitude := q.amplitude * alpha * majorana_point.amplitude
        phase := q.phase + majorana_point.phase + wormhole_point.curvature
        coherence := q.coherence
        wormhole_coupling := wormhole_point.energy_density
        spacetime_correction := wormhole_point.einstein_tensor }
    qubitsB := fun j =>
      let q := circuitB.qubits j
      { id := q.id + 5
        amplitude := q.amplitude * beta * majorana_point.amplitude
        phase := q.phase - majorana_point.phase - wormhole_point.curvature
        coherence := q.coherence
        wormhole_coupling := -wormhole_point.energy_density
        spacetime_correction := -wormhole_point.einstein_tensor }
    coordX := i % 32
    coordY := i / 32
    wormhole_sector := i / 256 }

/-- `createWormholeFragmentationSystem(circuitA, circuitB)`: the 1024
fragments and the three aggregate scalars. -/
noncomputable def createWormholeFragmentationSystem (circuitA circuitB : WCircuit) :
    FragmentationSystem :=
  let fragmentedStates := (List.range 1024).map (mkFragmentedState circuitA circuitB)
  { fragmented_states := fragmentedStates
    total_energy := (fragmentedStates.map fun s =>
      (∑ j : Fin 5, (s.qubitsA j).amplitude * (s.qubitsA j).amplitude) +
        ∑ j : Fin 5, (s.qubitsB j).amplitude * (s.qubitsB j).amplitude).sum
    average_tunneling := (fragmentedStates.map (·.tunneling_probability)).sum / 1024
    geometric_coherence :=
      ((fragmentedStates.filter fun s => decide (s.tunneling_probability > 0.5)).length : ℝ)
        / 1024 }

/-- One reconstructed qubit aggregate. -/
structure ReconstructedQubit where
  amplitude : ℝ
  phase : ℝ
  coherence : ℝ
  geometric_weight : ℝ
  wormhole_contributions : List ℝ
  contributing_fragment_ids : List ℕ

/-- The per-qubit fold of `reconstructWithWormholeGeometry`: fragments whose
mixing coefficient (`alpha` for circuit A, `beta` for circuit B) exceeds 0.3
contribute, weighted by the tunneling probability; accumulated amplitude and
phase are normalized by the accumulated weight when that weight is positive,
and the coherence is the tanh squashing of the weight scaled by 1/100. -/
noncomputable def reconstructQubit (frags : List FragmentedState)
    (coeff : FragmentedState → ℝ) (getQ : FragmentedState → FragmentQubit) :
    ReconstructedQubit :=
  let contrib := frags.filter fun s => decide (coeff s > 0.3)
  let weight := (contrib.map fun s => coeff s * s.tunneling_probability).sum
  let ampRaw := (contrib.map fun s =>
    (getQ s).amplitude * coeff s * s.tunneling_probability).sum
  let phRaw := (contrib.map fun s =>
    (getQ s).phase * coeff s * s.tunneling_probability).sum
  { amplitude := if weight > 0 then ampRaw / weight else ampRaw
    phase := if weight > 0 then phRaw / weight else phRaw
    coherence := if weight > 0 then Real.tanh (weight / 100) else 0
    geometric_weight := weight
    wormhole_contributions := contrib.map (·.wormhole_position)
    contributing_fragment_ids := contrib.map (·.id) }

/-- `calculateExplorationFactor(qubits)`: with fewer than 20 contributing
fragment ids the factor is 0; otherwise it is the variance of the
dimensionless positions of the contributing ids, normalized by 8 and capped
at 1. -/
noncomputable def calculateExplorationFactor (qubits : Fin 5 → ReconstructedQubit) : ℝ :=
  let all_fragment_ids :=
    (List.finRange 5).flatMap fun q => (qubits q).contributing_fragment_ids
  if all_fragment_ids.length < 20 then 0
  else
    let norm_positions :=
      all_fragment_ids.map fun id => ((id : ℝ) / (num_points : ℝ) - 0.5) * 10
    let mean := norm_positions.sum / (norm_positions.length : ℝ)
    let variance :=
      (norm_positions.map fun val => (val - mean) ^ 2).sum / (norm_positions.length : ℝ)
    min 1 (variance / 8)

/-- One reconstructed circuit: five aggregates and the mean coherence. -/
structure ReconstructedCircuit where
  qubits : Fin 5 → ReconstructedQubit
  wormhole_fidelity : ℝ

/-- One geometric-correction sample of the result. -/
structure GeometricCorrection where
  position : ℝ
  curvature : ℝ
  energy : ℝ

/-- The result of `reconstructWithWormholeGeometry`. -/
structure ReconstructionResult where
  circuit_A : ReconstructedCircuit
  circuit_B : ReconstructedCircuit
  wormhole_efficiency : ℝ
  average_tunneling : ℝ
  geometric_corrections : List GeometricCorrection

/-- `reconstructWithWormholeGeometry(fragmentationSystem)`: the five per-qubit
folds per circuit, the per-circuit fidelities (mean coherence), the
exploration factors, and the final efficiency
`0.7 average_fidelity + 0.3 average_exploration`. -/
noncomputable def reconstructWithWormholeGeometry (sys : FragmentationSystem) :
    ReconstructionResult :=
  let qA : Fin 5 → ReconstructedQubit := fun q =>
    reconstructQubit sys.fragmented_states (·.alpha) (·.qubitsA q)
  let qB : Fin 5 → ReconstructedQubit := fun q =>
    reconstructQubit sys.fragmented_states (·.beta) (·.qubitsB q)
  let fidelityA := (∑ q : Fin 5, (qA q).coherence) / 5
  let fidelityB := (∑ q : Fin 5, (qB q).coherence) / 5
  let explorationA := calculateExplorationFactor qA
  let explorationB := calculateExplorationFactor qB
  let average_exploration := (explorationA + explorationB) / 2
  let average_fidelity := (fidelityA + fidelityB) / 2
  { circuit_A := { qubits := qA, wormhole_fidelity := fidelityA }
    circuit_B := { qubits := qB, wormhole_fidelity := fidelityB }
    wormhole_efficiency := 0.7 * average_fidelity + 0.3 * average_exploration
    average_tunneling := sys.average_tunneling
    geometric_corrections := (List.range 10).map fun i =>
      let point := spacetimeCurvature i
      { position := point.z
        curvature := point.ricci_scalar
        energy := point.stress_energy } }

/-- The gate-selection arrays as serialized by `handleGenerateSeed`: the ten
boolean arrays in the key order of `initialGates` (object spreads in the
source preserve that order). -/
structure SeedGateSelection where
  hadamard : List Bool
  pauliX : List Bool
  pauliY : List Bool
  pauliZ : List Bool
  rotationX : List Bool
  rotationY : List Bool
  rotationZ : List Bool
  tGate : List Bool
  swap : List Bool
  ccnot : List Bool
deriving DecidableEq

/-- The full configuration object serialized by `handleGenerateSeed`: the two
gate selections and the two enable flags, in the key order of the object
literal in the source. -/
structure SeedState where
  selectedGatesA : SeedGateSelection
  selectedGatesB : SeedGateSelection
  circuitBEnabled : Bool
  interCircuitEntanglementEnabled : Bool
deriving DecidableEq

/-- A JSON key literal: quote, name, quote, colon. -/
def jsonKey (s : String) : List Char := '\"' :: s.data ++ ['\"', ':']

/-- JSON serialization of one boolean. -/
def serBool (b : Bool) : List Char :=
  if b then ['t', 'r', 'u', 'e'] else ['f', 'a', 'l', 's', 'e']

/-- JSON serialization of the tail of a boolean array (separators and the
closing bracket). -/
def serBoolsTail : List Bool → List Char
  | [] => [']']
  | b :: bs => ',' :: (serBool b ++ serBoolsTail bs)

/-- JSON serialization of a boolean array. -/
def serBoolArray : List Bool → List Char
  | [] => ['[', ']']
  | b :: bs => '[' :: (serBool b ++ serBoolsTail bs)

/-- JSON serialization of a gate selection, with `JSON.stringify`'s key
order and no whitespace. -/
def serGateSelection (g : SeedGateSelection) : List Char :=
  '\x7b' :: jsonKey "hadamard" ++ serBoolArray g.hadamard ++
  ',' :: jsonKey "pauliX" ++ serBoolArray g.pauliX ++
  ',' :: jsonKey "pauliY" ++ serBoolArray g.pauliY ++
  ',' :: jsonKey "pauliZ" ++ serBoolArray g.pauliZ ++
  ',' :: jsonKey "rotationX" ++ serBoolArray g.rotationX ++
  ',' :: jsonKey "rotationY" ++ serBoolArray g.rotationY ++
  ',' :: jsonKey "rotationZ" ++ serBoolArray g.rotationZ ++
  ',' :: jsonKey "tGate" ++ serBoolArray g.tGate ++
  ',' :: jsonKey "swap" ++ serBoolArray g.swap ++
  ',' :: jsonKey "ccnot" ++ serBoolArray g.ccnot ++ ['\x7d']

/-- `JSON.stringify` of the configuration object built by
`handleGenerateSeed`. -/
def serSeedState (st : SeedState) : List Char :=
  '\x7b' :: jsonKey "selectedGatesA" ++ serGateSelection st.selectedGatesA ++
  ',' :: jsonKey "selectedGatesB" ++ serGateSelection st.selectedGatesB ++
  ',' :: jsonKey "circuitBEnabled" ++ serBool st.circuitBEnabled ++
  ',' :: jsonKey "interCircuitEntanglementEnabled" ++
    serBool st.interCircuitEntanglementEnabled ++ ['\x7d']

/-- Consume an expected literal from the input. -/
def parseLit : List Char → List Char → Option (List Char)
  | [], s => some s
  | _ :: _, [] => none
  | c :: cs, d :: s => if c = d then parseLit cs s else none

/-- Parse one JSON boolean. -/
def parseBool : List Char → Option (Bool × List Char)
  | 't' :: 'r' :: 'u' :: 'e' :: s => some (true, s)
  | 'f' :: 'a' :: 'l' :: 's' :: 'e' :: s => some (false, s)
  | _ => none

/-- Parse the items of a non-empty JSON boolean array up to the closing
bracket. -/
def parseBools : List Char → Option (List Bool × List Char)
  | 't' :: 'r' :: 'u' :: 'e' :: ']' :: s => some ([true], s)
  | 't' :: 'r' :: 'u' :: 'e' :: ',' :: s =>
    match parseBools s with
    | some (bs, r) => some (true :: bs, r)
    | none => none
  | 'f' :: 'a' :: 'l' :: 's' :: 'e' :: ']' :: s => some ([false], s)
  | 'f' :: 'a' :: 'l' :: 's' :: 'e' :: ',' :: s =>
    match parseBools s with
    | some (bs, r) => some (false :: bs, r)
    | none => none
  | _ => none

/-- Parse a JSON boolean array. -/
def parseBoolArray : List Char → Option (List Bool × List Char)
  | '[' :: ']' :: s => some ([], s)
  | '[' :: s => parseBools s
  | _ => none

/-- Consume an expected key literal, then a boolean array. -/
def parseKeyedArray (k : List Char) (s : List Char) : Option (List Bool × List Char) :=
  match parseLit k s with
  | none => none
  | some s1 => parseBoolArray s1

/-- Consume an expected key literal, then a boolean. -/
def parseKeyedBool (k : List Char) (s : List Char) : Option (Bool × List Char) :=
  match parseLit k s with
  | none => none
  | some s1 => parseBool s1

/-- Parse a serialized gate selection. -/
def parseGateSelection (s : List Char) : Option (SeedGateSelection × List Char) :=
  match parseKeyedArray ('\x7b' :: jsonKey "hadamard") s with
  | none => none
  | some (h, s) =>
  match parseKeyedArray (',' :: jsonKey "pauliX") s with
  | none => none
  | some (px, s) =>
  match parseKeyedArray (',' :: jsonKey "pauliY") s with
  | none => none
  | some (py, s) =>
  match parseKeyedArray (',' :: jsonKey "pauliZ") s with
  | none => none
  | some (pz, s) =>
  match parseKeyedArray (',' :: jsonKey "rotationX") s with
  | none => none
  | some (rx, s) =>
  match parseKeyedArray (',' :: jsonKey "rotationY") s with
  | none => none
  | some (ry, s) =>
  match parseKeyedArray (',' :: jsonKey "rotationZ") s with
  | none => none
  | some (rz, s) =>
  match parseKeyedArray (',' :: jsonKey "tGate") s with
  | none => none
  | some (tg, s) =>
  match parseKeyedArray (',' :: jsonKey "swap") s with
  | none => none
  | some (sw, s) =>
  match parseKeyedArray (',' :: jsonKey "ccnot") s with
  | none => none
  | some (cc, s) =>
  match parseLit ['\x7d'] s with
  | none => none
  | some s => some (⟨h, px, py, pz, rx, ry, rz, tg, sw, cc⟩, s)

/-- Parse the full serialized configuration object, requiring the whole
input to be consumed (as `JSON.parse` does). -/
def parseSeedState (s : List Char) : Option SeedState :=
  match parseLit ('\x7b' :: jsonKey "selectedGatesA") s with
  | none => none
  | some s =>
  match parseGateSelection s with
  | none => none
  | some (gA, s) =>
  match parseLit (',' :: jsonKey "selectedGatesB") s with
  | none => none
  | some s =>
  match parseGateSelection s with
  | none => none
  | some (gB, s) =>
  match parseKeyedBool (',' :: jsonKey "circuitBEnabled") s with
  | none => none
  | some (cb, s) =>
  match parseKeyedBool (',' :: jsonKey "interCircuitEntanglementEnabled") s with
  | none => none
  | some (ic, s) =>
  match parseLit ['\x7d'] s with
  | none => none
  | some s => if s = [] then some ⟨gA, gB, cb, ic⟩ else none

/-- The base64 alphabet used by `btoa`. -/
def b64Table : List Char :=
  ['A', 'B', 'C', 'D', 'E', 'F', 'G', 'H', 'I', 'J', 'K', 'L', 'M',
   'N', 'O', 'P', 'Q', 'R', 'S', 'T', 'U', 'V', 'W', 'X', 'Y', 'Z',
   'a', 'b', 'c', 'd', 'e', 'f', 'g', 'h', 'i', 'j', 'k', 'l', 'm',
   'n', 'o', 'p', 'q', 'r', 's', 't', 'u', 'v', 'w', 'x', 'y', 'z',
   '0', '1', '2', '3', '4', '5', '6', '7', '8', '9', '+', '/']

/-- Digit of the base64 alphabet for a sextet value. -/
def b64Char (n : ℕ) : Char := b64Table.getD n 'A'

/-- Inverse lookup into the base64 alphabet. -/
def b64Index (c : Char) : Option ℕ := b64Table.findIdx? (· = c)

/-- `btoa` on a list of byte values: 24-bit groups become four sextets, a
trailing group of one or two bytes is padded with `=`. -/
def base64EncodeBytes : List ℕ → List Char
  | [] => []
  | [a] => [b64Char (a / 4), b64Char (a % 4 * 16), '=', '=']
  | [a, b] =>
    [b64Char (a / 4), b64Char (a % 4 * 16 + b / 16), b64Char (b % 16 * 4), '=']
  | a :: b :: c :: rest =>
    b64Char (a / 4) :: b64Char (a % 4 * 16 + b / 16) ::
      b64Char (b % 16 * 4 + c / 64) :: b64Char (c % 64) :: base64EncodeBytes rest

/-- `atob` on a base64 string, producing the byte values. -/
def base64DecodeBytes : List Char → Option (List ℕ)
  | [] => some []
  | c1 :: c2 :: c3 :: c4 :: rest =>
    match b64Index c1, b64Index c2 with
    | some s1, some s2 =>
      if c3 = '=' then
        if c4 = '=' ∧ rest = [] then some [s1 * 4 + s2 / 16] else none
      else
        match b64Index c3 with
        | some s3 =>
          if c4 = '=' then
            if rest = [] then some [s1 * 4 + s2 / 16, s2 % 16 * 16 + s3 / 4] else none
          else
            match b64Index c4 with
            | some s4 =>
              match base64DecodeBytes rest with
              | some bs =>
                some ((s1 * 4 + s2 / 16) :: (s2 % 16 * 16 + s3 / 4) ::
                  (s3 % 4 * 64 + s4) :: bs)
              | none => none
            | none => none
        | none => none
    | _, _ => none
  | _ => none

/-- `handleGenerateSeed`: `btoa(JSON.stringify(state))` over the
configuration object. -/
def handleGenerateSeed (st : SeedState) : List Char :=
  base64EncodeBytes ((serSeedState st).map Char.toNat)

/-- `handleLoadSeed`: `JSON.parse(atob(seed))`, reading back the four
configuration fields; any failure is reported as `none` (the source shows an
invalid-seed alert). -/
def handleLoadSeed (s : List Char) : Option SeedState :=
  match base64DecodeBytes s with
  | some bytes => parseSeedState (bytes.map Char.ofNat)
  | none => none

/-! ### Basic facts about the circuit operations -/

theorem entangleQubits_state (qs : Fin 5 → Qubit) (i j k : Fin 5) :
    ((entangleQubits qs i j) k).state = (qs k).state := by
  unfold entangleQubits updQ
  simp only [Function.update_apply]
  split_ifs <;> subst_vars <;> rfl

theorem createIntraCircuitEntanglement_state (qs : Fin 5 → Qubit) (k : Fin 5) :
    ((createIntraCircuitEntanglement qs) k).state = (qs k).state := by
  unfold createIntraCircuitEntanglement
  simp [List.foldl, entangleQubits_state]

/-! ### Claim C7: hadamard applied twice to state [1, 0] -/

/-- Claim C7: applying `hadamard` twice to a qubit whose state is `[1, 0]`
returns the state to `[1, 0]`; over the real model the identity is exact,
hence in particular within any floating-point tolerance. -/
theorem claim_C7_hadamard_twice :
    ((initQubit.hadamard).hadamard).state = (1, 0) := by
  have h2 : Real.sqrt 2 ≠ 0 := by positivity
  have hs : Real.sqrt 2 * Real.sqrt 2 = 2 := Real.mul_self_sqrt (by norm_num)
  simp only [initQubit, Qubit.hadamard, Prod.mk.injEq]
  constructor
  · field_simp
  · field_simp

/-! ### Claim C2: measurement collapse -/

/-- Claim C2: for every qubit state vector and every uniform sample
`r ∈ [0, 1)`, `measure` returns 0 and collapses the state to exactly
`[1, 0]` when `r < |state[0]|^2`, otherwise returns 1 and collapses to
exactly `[0, 1]`; in particular the result is always 0 or 1 and the
post-measurement state is the matching basis vector. -/
theorem claim_C2_measure_collapse (q : Qubit) (r : ℝ)
    (h0 : 0 ≤ r) (h1 : r < 1) :
    (r < |q.state.1| ^ 2 → q.measure r = (0, { q with state := (1, 0) })) ∧
    (¬ r < |q.state.1| ^ 2 → q.measure r = (1, { q with state := (0, 1) })) ∧
    ((q.measure r).1 = 0 ∨ (q.measure r).1 = 1) ∧
    ((q.measure r).1 = 0 → (q.measure r).2.state = (1, 0)) ∧
    ((q.measure r).1 = 1 → (q.measure r).2.state = (0, 1)) := by
  unfold Qubit.measure
  by_cases h : r < |q.state.1| ^ 2
  · rw [if_pos h]
    exact ⟨fun _ => rfl, fun hc => absurd h hc, Or.inl rfl, fun _ => rfl,
      fun hc => absurd hc (by norm_num)⟩
  · rw [if_neg h]
    exact ⟨fun hc => absurd hc h, fun _ => rfl, Or.inr rfl,
      fun hc => absurd hc (by norm_num), fun _ => rfl⟩

/-- Witness for claim C2 at the fresh qubit and the draw 1/2. -/
theorem claim_C2_measure_collapse_witness :
    (0 : ℝ) ≤ 1 / 2 ∧ (1 / 2 : ℝ) < 1 ∧
      initQubit.measure (1 / 2) = (0, { initQubit with state := (1, 0) }) := by
  refine ⟨by norm_num, by norm_num, ?_⟩
  exact (claim_C2_measure_collapse initQubit (1 / 2) (by norm_num)
    (by norm_num)).1 (by norm_num [initQubit])

/-! ### Claim C6: resetCircuit versus fresh construction -/

theorem resetCircuit_eq_mk (c : QuantumCircuit) :
    resetCircuit c = mkQuantumCircuit c.circuitId c.selectedGates := rfl

theorem setupCircuit_measurementHistory (c : QuantumCircuit) :
    (setupCircuit c).measurementHistory = c.measurementHistory := by
  unfold setupCircuit
  cases c.selectedGates <;> rfl

theorem setupCircuit_interCircuitConnections (c : QuantumCircuit) :
    (setupCircuit c).interCircuitConnections = c.interCircuitConnections := by
  unfold setupCircuit
  cases c.selectedGates <;> rfl

/-- Claim C6: for every gate selection, `resetCircuit` produces qubit states,
phases and applied-gate lists structurally identical to those of a freshly
constructed circuit with the same qubit count (five), circuit id and gate
selection, with the measurement history and the cross-circuit connection
list left empty. -/
theorem claim_C6_reset_equals_fresh (c : QuantumCircuit) :
    (∀ i : Fin 5,
      ((resetCircuit c).qubits i).state =
        ((mkQuantumCircuit c.circuitId c.selectedGates).qubits i).state ∧
      ((resetCircuit c).qubits i).phase =
        ((mkQuantumCircuit c.circuitId c.selectedGates).qubits i).phase ∧
      ((resetCircuit c).qubits i).appliedGates =
        ((mkQuantumCircuit c.circuitId c.selectedGates).qubits i).appliedGates) ∧
    (resetCircuit c).measurementHistory = [] ∧
    (resetCircuit c).interCircuitConnections = [] := by
  refine ⟨fun i => ⟨rfl, rfl, rfl⟩, ?_, ?_⟩
  · rw [resetCircuit_eq_mk]
    unfold mkQuantumCircuit
    rw [setupCircuit_measurementHistory]
  · rw [resetCircuit_eq_mk]
    unfold mkQuantumCircuit
    rw [setupCircuit_interCircuitConnections]

/-! ### Claim C4: inter-circuit entanglement -/

/-- Counterexample to claim C4 as stated: with both circuits freshly
constructed (every state `[1, 0]`) and the single connection `(2, 2)`, the
receiving qubit's new state is not the componentwise average of the two
previous states — the source divides the componentwise sum by `sqrt 2`, not
by 2. -/
theorem claim_C4_counterexample :
    ((createInterCircuitEntanglement (mkQuantumCircuit "A" none)
        (mkQuantumCircuit "B" none) [(2, 2)]).1.qubits 2).state ≠
      ((((mkQuantumCircuit "A" none).qubits 2).state.1 +
          ((mkQuantumCircuit "B" none).qubits 2).state.1) / 2,
        (((mkQuantumCircuit "A" none).qubits 2).state.2 +
          ((mkQuantumCircuit "B" none).qubits 2).state.2) / 2) := by
  intro h
  have h1 := congrArg Prod.fst h
  have hL : ((createInterCircuitEntanglement (mkQuantumCircuit "A" none)
      (mkQuantumCircuit "B" none) [(2, 2)]).1.qubits 2).state.1 =
      (1 + 1) / Real.sqrt 2 := by
    simp [createInterCircuitEntanglement, interEntangleStep, mkQuantumCircuit,
      setupCircuit, updQ, Function.update_same, initQubit]
  rw [hL] at h1
  have hR : ((((mkQuantumCircuit "A" none).qubits 2).state.1 +
      ((mkQuantumCircuit "B" none).qubits 2).state.1) / 2 : ℝ) = 1 := by
    simp [mkQuantumCircuit, setupCircuit, initQubit]
  rw [hR] at h1
  rw [show ((1 : ℝ) + 1) = 2 by norm_num, Real.div_sqrt] at h1
  rw [Real.sqrt_eq_one] at h1
  norm_num at h1

/-- Claim C4 amended: for every in-range pair `(i, j)` the two qubits end
with identical states equal to the componentwise sum of their previous
states divided by `sqrt 2` (not the componentwise average), both are flagged
entangled, and each records the partner through the string circuit-id
followed by the index. -/
theorem claim_C4_inter_entanglement (cA cB : QuantumCircuit) (i j : Fin 5) :
    ((createInterCircuitEntanglement cA cB [(i.val, j.val)]).1.qubits i).state =
      (((cA.qubits i).state.1 + (cB.qubits j).state.1) / Real.sqrt 2,
        ((cA.qubits i).state.2 + (cB.qubits j).state.2) / Real.sqrt 2) ∧
    ((createInterCircuitEntanglement cA cB [(i.val, j.val)]).2.qubits j).state =
      (((cA.qubits i).state.1 + (cB.qubits j).state.1) / Real.sqrt 2,
        ((cA.qubits i).state.2 + (cB.qubits j).state.2) / Real.sqrt 2) ∧
    ((createInterCircuitEntanglement cA cB [(i.val, j.val)]).1.qubits i).entangled = true ∧
    ((createInterCircuitEntanglement cA cB [(i.val, j.val)]).2.qubits j).entangled = true ∧
    ((createInterCircuitEntanglement cA cB [(i.val, j.val)]).1.qubits i).entangledWith =
      (cA.qubits i).entangledWith ++ [.cross (cB.circuitId ++ toString j.val)] ∧
    ((createInterCircuitEntanglement cA cB [(i.val, j.val)]).2.qubits j).entangledWith =
      (cB.qubits j).entangledWith ++ [.cross (cA.circuitId ++ toString i.val)] := by
  have hij : (i.val < 5 ∧ j.val < 5) := ⟨i.isLt, j.isLt⟩
  simp only [createInterCircuitEntanglement, interEntangleStep, List.foldl_cons,
    List.foldl_nil, dif_pos hij, updQ, Fin.eta, Function.update_same]
  refine ⟨?_, ?_, ?_, ?_, ?_, ?_⟩ <;> first | rfl | trivial

/-! ### Claim C3: all-hadamard circuit -/

/-- The gate selection of the C3 scenario: `hadamard` on all five qubits and
nothing else. -/
def selOnlyHadamard : SelectedGates where
  hadamard := fun _ => true
  pauliX := fun _ => false
  pauliY := fun _ => false
  pauliZ := fun _ => false
  rotationX := fun _ => false
  rotationY := fun _ => false
  rotationZ := fun _ => false
  tGate := fun _ => false
  swap := fun _ => false
  ccnot := fun _ => false

theorem mkOnlyHadamard_state (i : Fin 5) :
    ((mkQuantumCircuit "A" (some selOnlyHadamard)).qubits i).state =
      (1 / Real.sqrt 2, 1 / Real.sqrt 2) := by
  show ((createIntraCircuitEntanglement
      (fun k => applyGatesToQubit selOnlyHadamard k initQubit)) i).state = _
  rw [createIntraCircuitEntanglement_state]
  show (initQubit.hadamard).state = _
  simp [Qubit.hadamard, initQubit]

theorem mkOnlyHadamard_prob1 (i : Fin 5) :
    ((mkQuantumCircuit "A" (some selOnlyHadamard)).qubits i).getProbability1 = 0.5 := by
  unfold Qubit.getProbability1
  rw [mkOnlyHadamard_state]
  rw [show ((1 / Real.sqrt 2, 1 / Real.sqrt 2) : ℝ × ℝ).2 = 1 / Real.sqrt 2 from rfl]
  rw [abs_of_nonneg (by positivity), div_pow, one_pow,
    Real.sq_sqrt (by norm_num : (0 : ℝ) ≤ 2)]
  norm_num

theorem mkOnlyHadamard_system :
    getSystemProbability (mkQuantumCircuit "A" (some selOnlyHadamard)) = 0.03125 := by
  unfold getSystemProbability
  rw [show List.finRange 5 = [0, 1, 2, 3, 4] from rfl]
  simp only [List.foldl_cons, List.foldl_nil, mkOnlyHadamard_prob1]
  norm_num

/-- Counterexample to claim C3 as stated: the all-hadamard circuit leaves
qubit 0 with state `[1/sqrt 2, 1/sqrt 2]` (the source hadamard maps `[1, 0]`
to `[(1+0)/sqrt 2, (1-0)/sqrt 2]`), not `[1/sqrt 2, -1/sqrt 2]`. -/
theorem claim_C3_counterexample :
    ((mkQuantumCircuit "A" (some selOnlyHadamard)).qubits 0).state ≠
      (1 / Real.sqrt 2, -(1 / Real.sqrt 2)) := by
  rw [mkOnlyHadamard_state]
  intro h
  have h2 := congrArg Prod.snd h
  simp only [Prod.snd] at h2
  have hpos : (0 : ℝ) < 1 / Real.sqrt 2 := by positivity
  linarith [h2, hpos]

/-- Claim C3 amended: with only `hadamard` enabled on all five qubits every
qubit's state is `[1/sqrt 2, 1/sqrt 2]` (the second component is positive,
not negative as the claim says), hence `prob1 = 0.5` for each qubit and
`getSystemProbability()` immediately after construction equals
`0.5^5 = 0.03125`. -/
theorem claim_C3_hadamard_circuit :
    (∀ i : Fin 5, ((mkQuantumCircuit "A" (some selOnlyHadamard)).qubits i).state =
      (1 / Real.sqrt 2, 1 / Real.sqrt 2)) ∧
    (∀ i : Fin 5,
      ((mkQuantumCircuit "A" (some selOnlyHadamard)).qubits i).getProbability1 = 0.5) ∧
    getSystemProbability (mkQuantumCircuit "A" (some selOnlyHadamard)) = 0.03125 :=
  ⟨mkOnlyHadamard_state, mkOnlyHadamard_prob1, mkOnlyHadamard_system⟩

/-! ### Claim C8: the ccnot-only circuit -/

theorem entangleQubits_entangled_left (qs : Fin 5 → Qubit) (i j : Fin 5) :
    ((entangleQubits qs i j) i).entangled = true := by
  unfold entangleQubits updQ
  simp only [Function.update_apply]
  split_ifs <;> first | rfl | simp_all

theorem entangleQubits_entangled_right (qs : Fin 5 → Qubit) (i j : Fin 5) :
    ((entangleQubits qs i j) j).entangled = true := by
  unfold entangleQubits updQ
  simp only [Function.update_apply]
  split_ifs <;> first | rfl | simp_all

theorem entangleQubits_entangled_ne (qs : Fin 5 → Qubit) (i j k : Fin 5)
    (hi : k ≠ i) (hj : k ≠ j) :
    ((entangleQubits qs i j) k).entangled = (qs k).entangled := by
  unfold entangleQubits updQ
  simp only [Function.update_apply, if_neg hi, if_neg hj]

theorem ccnotGate_no_flip (qs : Fin 5 → Qubit) (c1 c2 t : Fin 5)
    (h1 : ¬ (qs c1).getProbability1 > 0.5) :
    ccnotGate qs c1 c2 t =
      entangleQubits (entangleQubits (entangleQubits qs c1 t) c2 t) c1 c2 := by
  unfold ccnotGate
  rw [if_neg]
  intro hc
  apply h1
  have h := hc.1
  unfold Qubit.getProbability1 at h ⊢
  rwa [entangleQubits_state, entangleQubits_state, entangleQubits_state] at h

/-- The gate selection of the C8 scenario: only the ccnot toggle for the
triple `(0, 1, 2)`. -/
def selOnlyCCNOT012 : SelectedGates where
  hadamard := fun _ => false
  pauliX := fun _ => false
  pauliY := fun _ => false
  pauliZ := fun _ => false
  rotationX := fun _ => false
  rotationY := fun _ => false
  rotationZ := fun _ => false
  tGate := fun _ => false
  swap := fun _ => false
  ccnot := fun i => i == 0

/-- Claim C8: with only the ccnot toggle for `(0, 1, 2)` enabled, qubit 2's
state stays `[1, 0]` (the conditional flip never fires because each
control's `prob1` is 0, not greater than 0.5), while qubits 0, 1 and 2 all
end with `entangled = true`. -/
theorem claim_C8_ccnot_circuit :
    ((mkQuantumCircuit "A" (some selOnlyCCNOT012)).qubits 2).state = (1, 0) ∧
    ((mkQuantumCircuit "A" (some selOnlyCCNOT012)).qubits 0).entangled = true ∧
    ((mkQuantumCircuit "A" (some selOnlyCCNOT012)).qubits 1).entangled = true ∧
    ((mkQuantumCircuit "A" (some selOnlyCCNOT012)).qubits 2).entangled = true := by
  have hqs : (mkQuantumCircuit "A" (some selOnlyCCNOT012)).qubits =
      ccnotGate (createIntraCircuitEntanglement (fun _ => initQubit)) 0 1 2 := rfl
  have hflip : ¬ ((createIntraCircuitEntanglement (fun _ => initQubit))
      (0 : Fin 5)).getProbability1 > 0.5 := by
    unfold Qubit.getProbability1
    rw [createIntraCircuitEntanglement_state]
    norm_num [initQubit]
  rw [hqs, ccnotGate_no_flip _ _ _ _ hflip]
  refine ⟨?_, ?_, ?_, ?_⟩
  · simp only [entangleQubits_state, createIntraCircuitEntanglement_state]
    rfl
  · exact entangleQubits_entangled_left _ 0 1
  · exact entangleQubits_entangled_right _ 0 1
  · rw [entangleQubits_entangled_ne _ 0 1 2 (by decide) (by decide)]
    exact entangleQubits_entangled_right _ 1 2

/-! ### Claim C5: streamline density normalization -/

theorem streamlinePointWeight_ge (dual : Bool) (cA : QuantumCircuit)
    (cB : Option QuantumCircuit) (len sid idx : ℕ) :
    0.1 ≤ streamlinePointWeight dual cA cB len sid idx := by
  unfold streamlinePointWeight
  split
  · norm_num
  · exact le_max_left _ _

theorem list_sum_map_div (l : List ℝ) (s : ℝ) :
    (l.map (fun p => p / s)).sum = l.sum / s := by
  induction l with
  | nil => simp
  | cons a l ih => simp [ih, add_div]

/-- Claim C5: for every streamline produced at construction with a non-empty
coordinate path, the probability-density entries sum to exactly 1 (hence
within 1e-9 of 1), and every subsequent `evolve(dt)` call leaves the
probability-density array untouched (it perturbs coordinates and the
coherence length only), so the normalization is preserved. -/
theorem claim_C5_density_normalized (dual : Bool) (cA : QuantumCircuit)
    (cB : Option QuantumCircuit) (coords : List (ℝ × ℝ)) (sid : ℕ)
    (h : coords ≠ []) (time Lx Ly : ℝ) (randoms : ℕ → ℝ × ℝ)
    (ph : List ℝ) (cl : ℝ) :
    (computeQuantumProbabilityDensity dual cA cB coords sid).sum = 1 ∧
    |(computeQuantumProbabilityDensity dual cA cB coords sid).sum - 1| ≤ 1e-9 ∧
    (evolveStreamline time Lx Ly randoms
      ⟨coords, computeQuantumProbabilityDensity dual cA cB coords sid, ph, cl⟩).probabilityDensity
      = computeQuantumProbabilityDensity dual cA cB coords sid := by
  have hlen : coords.length ≠ 0 := Nat.pos_iff_ne_zero.mp (List.length_pos.mpr h)
  have hsum : 0 < ((List.range coords.length).map
      (streamlinePointWeight dual cA cB coords.length sid)).sum := by
    apply List.sum_pos
    · intro x hx
      obtain ⟨idx, _, rfl⟩ := List.mem_map.mp hx
      calc (0 : ℝ) < 0.1 := by norm_num
        _ ≤ _ := streamlinePointWeight_ge dual cA cB coords.length sid idx
    · simpa using hlen
  have hone : (computeQuantumProbabilityDensity dual cA cB coords sid).sum = 1 := by
    unfold computeQuantumProbabilityDensity
    rw [if_neg hlen, if_pos hsum, list_sum_map_div, div_self (ne_of_gt hsum)]
  refine ⟨hone, ?_, rfl⟩
  rw [hone]
  norm_num

/-- Witness for claim C5 at a one-point path and a fresh circuit. -/
theorem claim_C5_density_normalized_witness :
    ([((1 : ℝ), (1 : ℝ))] ≠ []) ∧
      (computeQuantumProbabilityDensity false
        ⟨"A", fun _ => initQubit, [], none, []⟩ none [(1, 1)] 0).sum = 1 := by
  refine ⟨by simp, ?_⟩
  exact (claim_C5_density_normalized false
    ⟨"A", fun _ => initQubit, [], none, []⟩ none [(1, 1)] 0 (by simp)
    0 0 0 (fun _ => (0, 0)) [] 1).1

/-! ### Claim C10: bounded measurement history -/

theorem createInterCircuitEntanglement_history (c other : QuantumCircuit)
    (connections : List (ℕ × ℕ)) :
    (createInterCircuitEntanglement c other connections).1.measurementHistory =
        c.measurementHistory ∧
      (createInterCircuitEntanglement c other connections).2.measurementHistory =
        other.measurementHistory := by
  unfold createInterCircuitEntanglement
  have key : ∀ (l : List (ℕ × ℕ)) (p : QuantumCircuit × QuantumCircuit),
      ((l.foldl interEntangleStep p).1.measurementHistory = p.1.measurementHistory ∧
        (l.foldl interEntangleStep p).2.measurementHistory = p.2.measurementHistory) := by
    intro l
    induction l with
    | nil => intro p; exact ⟨rfl, rfl⟩
    | cons conn l ih =>
      intro p
      rw [List.foldl_cons]
      refine (ih _).imp (fun h => h.trans ?_) (fun h => h.trans ?_) <;>
        (unfold interEntangleStep; by_cases hc : conn.1 < 5 ∧ conn.2 < 5 <;> simp [hc])
  exact key connections _

theorem evolveCircuit_history (c : QuantumCircuit) (dt : ℝ) :
    (evolveCircuit c dt).measurementHistory = c.measurementHistory := rfl

theorem resetCircuit_history (c : QuantumCircuit) :
    (resetCircuit c).measurementHistory = [] := by
  rw [resetCircuit_eq_mk]
  unfold mkQuantumCircuit
  rw [setupCircuit_measurementHistory]

theorem historyPushTrim (H : List MeasurementRecord) (r : MeasurementRecord)
    (h : H.length ≤ 100) :
    (if (H ++ [r]).length > 100 then (H ++ [r]).tail else H ++ [r]).length ≤ 100 ∧
    (if (H ++ [r]).length > 100 then (H ++ [r]).tail else H ++ [r]).length =
      min (H.length + 1) 100 ∧
    (if (H ++ [r]).length > 100 then (H ++ [r]).tail else H ++ [r]) =
      (if H.length + 1 > 100 then H.tail else H) ++ [r] := by
  have hl : (H ++ [r]).length = H.length + 1 := by simp
  by_cases hc : H.length + 1 > 100
  · have hne : H ≠ [] := by
      intro hH
      rw [hH] at hc
      simp at hc
    rw [hl]
    rw [if_pos hc, if_pos hc, List.tail_append_of_ne_nil hne]
    refine ⟨?_, ?_, rfl⟩
    · simp
      omega
    · simp
      omega
  · rw [hl, if_neg hc, if_neg hc]
    refine ⟨?_, ?_, rfl⟩
    · simp
      omega
    · simp
      omega

/-- The snapshot pushed by one `measureAll` call. -/
noncomputable def measureSnapshot (c : QuantumCircuit) (rs : Fin 5 → ℝ)
    (t : ℝ) : MeasurementRecord :=
  { timestamp := t
    results := List.ofFn fun i => ((c.qubits i).measure (rs i)).1
    probabilities := List.ofFn fun i =>
      (((c.qubits i).measure (rs i)).2).getProbability1 }

/-- Claim C10: the measurement history never exceeds 100 entries.  Every
`measureAll` call appends exactly one snapshot (with five results, each 0 or
1) and drops the oldest entry when the length would exceed 100, so from any
history of length at most 100 the new length is `min (old + 1) 100 ≤ 100`;
the other mutating circuit operations (`evolve`, `resetCircuit`,
`createInterCircuitEntanglement`) never grow the history either. -/
theorem claim_C10_history_bounded (c cB : QuantumCircuit) (rs : Fin 5 → ℝ)
    (t dt : ℝ) (conns : List (ℕ × ℕ))
    (h : c.measurementHistory.length ≤ 100)
    (hB : cB.measurementHistory.length ≤ 100) :
    (measureAll c rs t).2.measurementHistory.length ≤ 100 ∧
    (measureAll c rs t).2.measurementHistory.length =
      min (c.measurementHistory.length + 1) 100 ∧
    (∃ snap : MeasurementRecord,
      snap.results.length = 5 ∧ (∀ b ∈ snap.results, b = 0 ∨ b = 1) ∧
      (measureAll c rs t).2.measurementHistory =
        (if c.measurementHistory.length + 1 > 100 then c.measurementHistory.tail
          else c.measurementHistory) ++ [snap]) ∧
    (evolveCircuit c dt).measurementHistory.length ≤ 100 ∧
    (resetCircuit c).measurementHistory.length ≤ 100 ∧
    (createInterCircuitEntanglement c cB conns).1.measurementHistory.length ≤ 100 ∧
    (createInterCircuitEntanglement c cB conns).2.measurementHistory.length ≤ 100 := by
  have hm : (measureAll c rs t).2.measurementHistory =
      (if (c.measurementHistory ++ [measureSnapshot c rs t]).length > 100 then
        (c.measurementHistory ++ [measureSnapshot c rs t]).tail
      else c.measurementHistory ++ [measureSnapshot c rs t]) := rfl
  obtain ⟨hb1, hb2, hb3⟩ :=
    historyPushTrim c.measurementHistory (measureSnapshot c rs t) h
  refine ⟨?_, ?_, ?_, ?_, ?_, ?_, ?_⟩
  · rw [hm]; exact hb1
  · rw [hm]; exact hb2
  · refine ⟨measureSnapshot c rs t, ?_, ?_, by rw [hm]; exact hb3⟩
    · simp [measureSnapshot]
    · intro b hb
      simp only [measureSnapshot, List.mem_ofFn, Set.mem_range] at hb
      obtain ⟨i, hi⟩ := hb
      subst hi
      unfold Qubit.measure
      dsimp only
      split
      · exact Or.inl rfl
      · exact Or.inr rfl
  · rw [evolveCircuit_history]; exact h
  · rw [resetCircuit_history]; simp
  · rw [(createInterCircuitEntanglement_history c cB conns).1]; exact h
  · rw [(createInterCircuitEntanglement_history c cB conns).2]; exact hB

/-- Witness for claim C10 at two fresh circuits with empty histories. -/
theorem claim_C10_history_bounded_witness :
    (([] : List MeasurementRecord).length ≤ 100) ∧
      (measureAll ⟨"A", fun _ => initQubit, [], none, []⟩ (fun _ => 0)
        0).2.measurementHistory.length ≤ 100 :=
  ⟨by simp, (claim_C10_history_bounded ⟨"A", fun _ => initQubit, [], none, []⟩
    ⟨"B", fun _ => initQubit, [], none, []⟩ (fun _ => 0) 0 0 []
    (by simp) (by simp)).1⟩

/-! ### Claim C1: bounds of the reconstruction pipeline -/

theorem tanh_nonneg_of_nonneg {x : ℝ} (hx : 0 ≤ x) : 0 ≤ Real.tanh x := by
  rw [Real.tanh_eq_sinh_div_cosh]
  exact div_nonneg (Real.sinh_nonneg_iff.mpr hx) (Real.cosh_pos x).le

theorem tanh_lt_one_real (x : ℝ) : Real.tanh x < 1 := by
  rw [Real.tanh_eq_sinh_div_cosh, div_lt_one (Real.cosh_pos x)]
  exact Real.sinh_lt_cosh x

theorem HBAR_pos : (0 : ℝ) < HBAR := by unfold HBAR; norm_num

theorem tunneling_pos (a : ℝ) : 0 < calculateQuantumTunnelingProbability a := by
  simp only [calculateQuantumTunnelingProbability]
  split
  · norm_num
  · exact Real.exp_pos _

theorem tunneling_le_one (a : ℝ) : calculateQuantumTunnelingProbability a ≤ 1 := by
  simp only [calculateQuantumTunnelingProbability]
  split
  · norm_num
  · rw [Real.exp_le_one_iff]
    have hk : 0 ≤ Real.sqrt (2 * (|dark_energy| - a * HBAR * C_LIGHT)) / HBAR :=
      div_nonneg (Real.sqrt_nonneg _) HBAR_pos.le
    have hww : (0 : ℝ) ≤ 2 * wormhole_distance := by unfold wormhole_distance; norm_num
    nlinarith [mul_nonneg hk hww]

theorem frag_tp_pos (A B : WCircuit) :
    ∀ s ∈ (createWormholeFragmentationSystem A B).fragmented_states,
      0 < s.tunneling_probability := by
  intro s hs
  simp only [createWormholeFragmentationSystem] at hs
  obtain ⟨i, _, rfl⟩ := List.mem_map.mp hs
  exact tunneling_pos _

theorem reconstructQubit_coherence_bounds (frags : List FragmentedState)
    (coeff : FragmentedState → ℝ) (getQ : FragmentedState → FragmentQubit)
    (htp : ∀ s ∈ frags, 0 < s.tunneling_probability) :
    0 ≤ (reconstructQubit frags coeff getQ).coherence ∧
      (reconstructQubit frags coeff getQ).coherence < 1 := by
  have hw : 0 ≤ ((frags.filter fun s => decide (coeff s > 0.3)).map
      fun s => coeff s * s.tunneling_probability).sum := by
    apply List.sum_nonneg
    intro x hx
    obtain ⟨s, hs, rfl⟩ := List.mem_map.mp hx
    have hsf := List.mem_filter.mp hs
    have hgt : coeff s > 0.3 := of_decide_eq_true hsf.2
    exact le_of_lt (mul_pos (lt_trans (by norm_num) hgt) (htp s hsf.1))
  have hc : (reconstructQubit frags coeff getQ).coherence =
      if ((frags.filter fun s => decide (coeff s > 0.3)).map
          fun s => coeff s * s.tunneling_probability).sum > 0 then
        Real.tanh (((frags.filter fun s => decide (coeff s > 0.3)).map
          fun s => coeff s * s.tunneling_probability).sum / 100)
      else 0 := rfl
  rw [hc]
  by_cases hpos : ((frags.filter fun s => decide (coeff s > 0.3)).map
      fun s => coeff s * s.tunneling_probability).sum > 0
  · rw [if_pos hpos]
    exact ⟨tanh_nonneg_of_nonneg (by positivity), tanh_lt_one_real _⟩
  · rw [if_neg hpos]
    norm_num

theorem sum5_div_bounds (f : Fin 5 → ℝ) (hf : ∀ q, 0 ≤ f q ∧ f q < 1) :
    0 ≤ (∑ q : Fin 5, f q) / 5 ∧ (∑ q : Fin 5, f q) / 5 < 1 := by
  have h0 : 0 ≤ ∑ q : Fin 5, f q :=
    Finset.sum_nonneg fun q _ => (hf q).1
  have h5 : (∑ q : Fin 5, f q) < 5 := by
    calc (∑ q : Fin 5, f q) < ∑ _q : Fin 5, (1 : ℝ) :=
          Finset.sum_lt_sum_of_nonempty Finset.univ_nonempty fun q _ => (hf q).2
      _ = 5 := by simp
  constructor
  · positivity
  · rw [div_lt_one (by norm_num : (0 : ℝ) < 5)]
    exact h5

theorem explorationFactor_bounds (qubits : Fin 5 → ReconstructedQubit) :
    0 ≤ calculateExplorationFactor qubits ∧ calculateExplorationFactor qubits ≤ 1 := by
  simp only [calculateExplorationFactor]
  split
  · norm_num
  · constructor
    · apply le_min (by norm_num)
      apply div_nonneg _ (by norm_num)
      apply div_nonneg _ (Nat.cast_nonneg _)
      apply List.sum_nonneg
      intro x hx
      obtain ⟨y, _, rfl⟩ := List.mem_map.mp hx
      exact sq_nonneg _
    · exact min_le_left _ _

/-- Claim C1: for every pair of 5-qubit input circuits, reconstructing the
output of the fragmentation system yields `wormhole_efficiency` in `[0, 1]`
and, for each of the ten reconstructed qubits (five per circuit), a
`coherence` value in `[0, 1)`. -/
theorem claim_C1_reconstruction_bounds (A B : WCircuit) :
    (0 ≤ (reconstructWithWormholeGeometry
        (createWormholeFragmentationSystem A B)).wormhole_efficiency ∧
      (reconstructWithWormholeGeometry
        (createWormholeFragmentationSystem A B)).wormhole_efficiency ≤ 1) ∧
    (∀ i : Fin 5,
      (0 ≤ ((reconstructWithWormholeGeometry
          (createWormholeFragmentationSystem A B)).circuit_A.qubits i).coherence ∧
        ((reconstructWithWormholeGeometry
          (createWormholeFragmentationSystem A B)).circuit_A.qubits i).coherence < 1) ∧
      (0 ≤ ((reconstructWithWormholeGeometry
          (createWormholeFragmentationSystem A B)).circuit_B.qubits i).coherence ∧
        ((reconstructWithWormholeGeometry
          (createWormholeFragmentationSystem A B)).circuit_B.qubits i).coherence < 1)) := by
  have htp := frag_tp_pos A B
  have hcohA : ∀ i : Fin 5,
      0 ≤ (reconstructQubit
          (createWormholeFragmentationSystem A B).fragmented_states
          (fun s => s.alpha) (fun s => s.qubitsA i)).coherence ∧
        (reconstructQubit
          (createWormholeFragmentationSystem A B).fragmented_states
          (fun s => s.alpha) (fun s => s.qubitsA i)).coherence < 1 :=
    fun i => reconstructQubit_coherence_bounds _ _ _ htp
  have hcohB : ∀ i : Fin 5,
      0 ≤ (reconstructQubit
          (createWormholeFragmentationSystem A B).fragmented_states
          (fun s => s.beta) (fun s => s.qubitsB i)).coherence ∧
        (reconstructQubit
          (createWormholeFragmentationSystem A B).fragmented_states
          (fun s => s.beta) (fun s => s.qubitsB i)).coherence < 1 :=
    fun i => reconstructQubit_coherence_bounds _ _ _ htp
  have hfidA := sum5_div_bounds _ hcohA
  have hfidB := sum5_div_bounds _ hcohB
  have hexpA := explorationFactor_bounds (fun q =>
    reconstructQubit (createWormholeFragmentationSystem A B).fragmented_states
      (fun s => s.alpha) (fun s => s.qubitsA q))
  have hexpB := explorationFactor_bounds (fun q =>
    reconstructQubit (createWormholeFragmentationSystem A B).fragmented_states
      (fun s => s.beta) (fun s => s.qubitsB q))
  have hE : (reconstructWithWormholeGeometry
      (createWormholeFragmentationSystem A B)).wormhole_efficiency =
      0.7 * (((∑ q : Fin 5, (reconstructQubit
          (createWormholeFragmentationSystem A B).fragmented_states
          (fun s => s.alpha) (fun s => s.qubitsA q)).coherence) / 5 +
        (∑ q : Fin 5, (reconstructQubit
          (createWormholeFragmentationSystem A B).fragmented_states
          (fun s => s.beta) (fun s => s.qubitsB q)).coherence) / 5) / 2) +
      0.3 * ((calculateExplorationFactor (fun q =>
          reconstructQubit (createWormholeFragmentationSystem A B).fragmented_states
            (fun s => s.alpha) (fun s => s.qubitsA q)) +
        calculateExplorationFactor (fun q =>
          reconstructQubit (createWormholeFragmentationSystem A B).fragmented_states
            (fun s => s.beta) (fun s => s.qubitsB q))) / 2) := rfl
  refine ⟨?_, fun i => ⟨hcohA i, hcohB i⟩⟩
  rw [hE]
  obtain ⟨ha1, ha2⟩ := hfidA
  obtain ⟨hb1, hb2⟩ := hfidB
  obtain ⟨he1, he2⟩ := hexpA
  obtain ⟨hf1, hf2⟩ := hexpB
  constructor
  · nlinarith
  · nlinarith

/-! ### Claim C9: seed encode/decode round trip -/

theorem parseLit_append (lit rest : List Char) :
    parseLit lit (lit ++ rest) = some rest := by
  induction lit with
  | nil => rfl
  | cons c cs ih => simp [parseLit, ih]

theorem parseBool_ser (b : Bool) (rest : List Char) :
    parseBool (serBool b ++ rest) = some (b, rest) := by
  cases b <;> rfl

theorem parseBools_ser (bs : List Bool) (b : Bool) (rest : List Char) :
    parseBools (serBool b ++ (serBoolsTail bs ++ rest)) = some (b :: bs, rest) := by
  induction bs generalizing b rest with
  | nil => cases b <;> rfl
  | cons b2 bs ih =>
    cases b
    · rw [show serBool false = ['f', 'a', 'l', 's', 'e'] from rfl]
      simp only [serBoolsTail, List.cons_append, List.nil_append,
        List.append_assoc, parseBools, List.append_eq, ih]
    · rw [show serBool true = ['t', 'r', 'u', 'e'] from rfl]
      simp only [serBoolsTail, List.cons_append, List.nil_append,
        List.append_assoc, parseBools, List.append_eq, ih]

theorem parseBoolArray_ser (bs : List Bool) (rest : List Char) :
    parseBoolArray (serBoolArray bs ++ rest) = some (bs, rest) := by
  cases bs with
  | nil => rfl
  | cons b bs =>
    have h1 : serBoolArray (b :: bs) ++ rest =
        '[' :: (serBool b ++ (serBoolsTail bs ++ rest)) := by
      simp [serBoolArray, List.append_assoc]
    rw [h1]
    have h2 : parseBoolArray ('[' :: (serBool b ++ (serBoolsTail bs ++ rest))) =
        parseBools (serBool b ++ (serBoolsTail bs ++ rest)) := by
      cases b <;> rfl
    rw [h2, parseBools_ser]

theorem parseLit_cons (c : Char) (k rest : List Char) :
    parseLit (c :: k) (c :: (k ++ rest)) = some rest :=
  parseLit_append (c :: k) rest

theorem parseLit_singleton (c : Char) (rest : List Char) :
    parseLit [c] (c :: rest) = some rest := by
  simp [parseLit]

theorem parseLit_self (k : List Char) : parseLit k k = some [] := by
  have h := parseLit_append k []
  rwa [List.append_nil] at h

theorem parseKeyedArray_cons_ser (c : Char) (k : List Char) (bs : List Bool)
    (rest : List Char) :
    parseKeyedArray (c :: k) (c :: (k ++ (serBoolArray bs ++ rest))) =
      some (bs, rest) := by
  unfold parseKeyedArray
  rw [parseLit_cons]
  exact parseBoolArray_ser bs rest

theorem parseKeyedBool_cons_ser (c : Char) (k : List Char) (b : Bool)
    (rest : List Char) :
    parseKeyedBool (c :: k) (c :: (k ++ (serBool b ++ rest))) = some (b, rest) := by
  unfold parseKeyedBool
  rw [parseLit_cons]
  exact parseBool_ser b rest

theorem parseGateSelection_ser (g : SeedGateSelection) (rest : List Char) :
    parseGateSelection (serGateSelection g ++ rest) = some (g, rest) := by
  unfold parseGateSelection
  simp only [serGateSelection, List.cons_append, List.nil_append,
    List.append_assoc, parseKeyedArray_cons_ser, parseLit_singleton]

theorem parseSeedState_ser (st : SeedState) :
    parseSeedState (serSeedState st) = some st := by
  unfold parseSeedState
  simp only [serSeedState, List.cons_append, List.nil_append, List.append_assoc,
    parseLit_cons, parseGateSelection_ser, parseKeyedBool_cons_ser,
    parseLit_self, parseLit_singleton, if_true]

theorem b64Index_b64Char : ∀ n : Fin 64, b64Index (b64Char n.val) = some n.val := by
  decide

theorem b64Char_ne_eq : ∀ n : Fin 64, b64Char n.val ≠ '=' := by
  decide

theorem b64Index_b64Char_of_lt (n : ℕ) (hn : n < 64) :
    b64Index (b64Char n) = some n := b64Index_b64Char ⟨n, hn⟩

theorem b64Char_ne_eq_of_lt (n : ℕ) (hn : n < 64) : b64Char n ≠ '=' :=
  b64Char_ne_eq ⟨n, hn⟩

theorem base64_roundTrip (bytes : List ℕ) (h : ∀ b ∈ bytes, b < 256) :
    base64DecodeBytes (base64EncodeBytes bytes) = some bytes := by
  induction bytes using base64EncodeBytes.induct with
  | case1 => rfl
  | case2 a =>
    have ha : a < 256 := h a (by simp)
    simp [base64EncodeBytes, base64DecodeBytes,
      b64Index_b64Char_of_lt (a / 4) (by omega),
      b64Index_b64Char_of_lt (a % 4 * 16) (by omega)]
    omega
  | case3 a b =>
    have ha : a < 256 := h a (by simp)
    have hb : b < 256 := h b (by simp)
    simp [base64EncodeBytes, base64DecodeBytes,
      b64Index_b64Char_of_lt (a / 4) (by omega),
      b64Index_b64Char_of_lt (a % 4 * 16 + b / 16) (by omega),
      b64Index_b64Char_of_lt (b % 16 * 4) (by omega),
      b64Char_ne_eq_of_lt (b % 16 * 4) (by omega)]
    omega
  | case4 a b c rest ih =>
    have ha : a < 256 := h a (by simp)
    have hb : b < 256 := h b (by simp)
    have hc : c < 256 := h c (by simp)
    have hrest : ∀ x ∈ rest, x < 256 := fun x hx => h x (by simp [hx])
    simp [base64EncodeBytes, base64DecodeBytes,
      b64Index_b64Char_of_lt (a / 4) (by omega),
      b64Index_b64Char_of_lt (a % 4 * 16 + b / 16) (by omega),
      b64Index_b64Char_of_lt (b % 16 * 4 + c / 64) (by omega),
      b64Index_b64Char_of_lt (c % 64) (by omega),
      b64Char_ne_eq_of_lt (b % 16 * 4 + c / 64) (by omega),
      b64Char_ne_eq_of_lt (c % 64) (by omega),
      ih hrest]
    omega

abbrev asciiChars (l : List Char) : Prop := ∀ c ∈ l, c.toNat < 256

theorem asciiChars_append {l1 l2 : List Char} (h1 : asciiChars l1)
    (h2 : asciiChars l2) : asciiChars (l1 ++ l2) := by
  intro c hc
  rcases List.mem_append.mp hc with h | h
  · exact h1 c h
  · exact h2 c h

theorem asciiChars_cons {c : Char} {l : List Char} (hc : c.toNat < 256)
    (h : asciiChars l) : asciiChars (c :: l) := by
  intro d hd
  rcases List.mem_cons.mp hd with h' | h'
  · subst h'; exact hc
  · exact h d h'

theorem asciiChars_serBool (b : Bool) : asciiChars (serBool b) := by
  cases b <;> decide

theorem asciiChars_serBoolsTail (bs : List Bool) : asciiChars (serBoolsTail bs) := by
  induction bs with
  | nil => decide
  | cons b bs ih =>
    exact asciiChars_cons (by decide) (asciiChars_append (asciiChars_serBool b) ih)

theorem asciiChars_serBoolArray (bs : List Bool) : asciiChars (serBoolArray bs) := by
  cases bs with
  | nil => decide
  | cons b bs =>
    exact asciiChars_cons (by decide)
      (asciiChars_append (asciiChars_serBool b) (asciiChars_serBoolsTail bs))

theorem asciiChars_jsonKey (s : String) (h : asciiChars s.data) :
    asciiChars (jsonKey s) :=
  asciiChars_cons (by decide) (asciiChars_append h (by decide))

theorem asciiChars_serGateSelection (g : SeedGateSelection) :
    asciiChars (serGateSelection g) := by
  unfold serGateSelection
  simp only [List.append_assoc, List.cons_append]
  refine asciiChars_cons (by decide) ?_
  refine asciiChars_append (asciiChars_jsonKey _ (by decide)) ?_
  refine asciiChars_append (asciiChars_serBoolArray _) ?_
  refine asciiChars_cons (by decide) ?_
  refine asciiChars_append (asciiChars_jsonKey _ (by decide)) ?_
  refine asciiChars_append (asciiChars_serBoolArray _) ?_
  refine asciiChars_cons (by decide) ?_
  refine asciiChars_append (asciiChars_jsonKey _ (by decide)) ?_
  refine asciiChars_append (asciiChars_serBoolArray _) ?_
  refine asciiChars_cons (by decide) ?_
  refine asciiChars_append (asciiChars_jsonKey _ (by decide)) ?_
  refine asciiChars_append (asciiChars_serBoolArray _) ?_
  refine asciiChars_cons (by decide) ?_
  refine asciiChars_append (asciiChars_jsonKey _ (by decide)) ?_
  refine asciiChars_append (asciiChars_serBoolArray _) ?_
  refine asciiChars_cons (by decide) ?_
  refine asciiChars_append (asciiChars_jsonKey _ (by decide)) ?_
  refine asciiChars_append (asciiChars_serBoolArray _) ?_
  refine asciiChars_cons (by decide) ?_
  refine asciiChars_append (asciiChars_jsonKey _ (by decide)) ?_
  refine asciiChars_append (asciiChars_serBoolArray _) ?_
  refine asciiChars_cons (by decide) ?_
  refine asciiChars_append (asciiChars_jsonKey _ (by decide)) ?_
  refine asciiChars_append (asciiChars_serBoolArray _) ?_
  refine asciiChars_cons (by decide) ?_
  refine asciiChars_append (asciiChars_jsonKey _ (by decide)) ?_
  refine asciiChars_append (asciiChars_serBoolArray _) ?_
  refine asciiChars_cons (by decide) ?_
  refine asciiChars_append (asciiChars_jsonKey _ (by decide)) ?_
  refine asciiChars_append (asciiChars_serBoolArray _) (by decide)

theorem asciiChars_serSeedState (st : SeedState) :
    asciiChars (serSeedState st) := by
  unfold serSeedState
  simp only [List.append_assoc, List.cons_append]
  refine asciiChars_cons (by decide) ?_
  refine asciiChars_append (asciiChars_jsonKey _ (by decide)) ?_
  refine asciiChars_append (asciiChars_serGateSelection _) ?_
  refine asciiChars_cons (by decide) ?_
  refine asciiChars_append (asciiChars_jsonKey _ (by decide)) ?_
  refine asciiChars_append (asciiChars_serGateSelection _) ?_
  refine asciiChars_cons (by decide) ?_
  refine asciiChars_append (asciiChars_jsonKey _ (by decide)) ?_
  refine asciiChars_append (asciiChars_serBool _) ?_
  refine asciiChars_cons (by decide) ?_
  refine asciiChars_append (asciiChars_jsonKey _ (by decide)) ?_
  refine asciiChars_append (asciiChars_serBool _) (by decide)

theorem seed_roundTrip (st : SeedState) :
    handleLoadSeed (handleGenerateSeed st) = some st := by
  unfold handleLoadSeed handleGenerateSeed
  have hbound : ∀ b ∈ (serSeedState st).map Char.toNat, b < 256 := by
    intro b hb
    obtain ⟨c, hc, rfl⟩ := List.mem_map.mp hb
    exact asciiChars_serSeedState st c hc
  rw [base64_roundTrip _ hbound]
  have hmap : ((serSeedState st).map Char.toNat).map Char.ofNat = serSeedState st := by
    simp [List.map_map, Function.comp_def, Char.ofNat_toNat]
  show parseSeedState (((serSeedState st).map Char.toNat).map Char.ofNat) = some st
  rw [hmap, parseSeedState_ser]

/-- A representative configuration with mixed flags across all gate types
and both circuits. -/
def representativeSeedState : SeedState :=
  { selectedGatesA :=
      { hadamard := [true, false, true, false, true]
        pauliX := [false, true, false, true, false]
        pauliY := [true, true, false, false, true]
        pauliZ := [false, false, true, true, false]
        rotationX := [true, false, false, true, true]
        rotationY := [false, true, true, false, false]
        rotationZ := [true, false, true, false, true]
        tGate := [false, true, false, true, false]
        swap := [true, false, true, false]
        ccnot := [false, true, false] }
    selectedGatesB :=
      { hadamard := [false, true, false, true, false]
        pauliX := [true, false, true, false, true]
        pauliY := [false, false, true, true, false]
        pauliZ := [true, true, false, false, true]
        rotationX := [false, true, true, false, false]
        rotationY := [true, false, false, true, true]
        rotationZ := [false, true, false, true, false]
        tGate := [true, false, true, false, true]
        swap := [false, true, false, true]
        ccnot := [true, false, true] }
    circuitBEnabled := true
    interCircuitEntanglementEnabled := false }

/-- Claim C9: decoding the encoded seed (base64 of the JSON serialization)
reproduces an object deep-equal to the original for every gate-configuration
object, and in particular for a representative configuration with mixed
flags across all gate types and both circuits. -/
theorem claim_C9_seed_roundtrip :
    (∀ st : SeedState, handleLoadSeed (handleGenerateSeed st) = some st) ∧
    handleLoadSeed (handleGenerateSeed representativeSeedState) =
      some representativeSeedState :=
  ⟨seed_roundTrip, seed_roundTrip representativeSeedState⟩
